import Mathlib

/-!
Shallow embedding of the sslider.js repository (ip.js value-interpolation
engine + sslider.js slider widget), for checking the natural-language
specification against the code.

The slider part models the navigation state of a `Sslider` instance
(src/js/sslider.js, lines 317-454): the fields of `sslider._state`
that the navigation logic reads and writes, plus the construction-time
constants `maxIdx` and `options.width`.  DOM manipulation is out of
scope; the `left` field models the pixel offset written to
`list.style.left` by `setLeftPos`.
-/

namespace Sslider

/-- Navigation-relevant state of a slider instance.
`maxIdx` is `images.length - 1`; `width` is `options.width`;
`currentIdx`, `left`, `autoDir` model `sslider._state`;
`legendSel` models which legend item carries the `"selected"` class. -/
structure State where
  maxIdx : Int
  width : Int
  currentIdx : Int
  left : Int
  autoDir : Int
  legendSel : Int
deriving DecidableEq, Repr

/-- Source `setLeftPos` (lines 439-442): writes the offset into the state
(and, in the DOM, into `list.style.left`). -/
def setLeftPos (s : State) (val : Int) : State :=
  { s with left := val }

/-- Source `showIdx` (lines 399-411).  Out-of-range index: the function returns
`undefined` (modelled as `none`) without touching any state.  In range:
computes `offset = -1 * idx * width`, animates to it (the instant
strategy `animate = setLeftPos`; the interpolated strategy converges to
the same offset, see `Ip.workValue_at_leg_end` below), sets
`currentIdx = idx`, marks legend item `idx` selected, and returns the
instance (modelled as `some` of the new state). -/
def showIdx (s : State) (idx : Int) : Option State :=
  if idx < 0 ∨ idx > s.maxIdx then none
  else
    let offset := -1 * idx * s.width
    let s1 := setLeftPos s offset
    some { s1 with currentIdx := idx, legendSel := idx }

/-- The state after `showIdx`: on the guarded out-of-range branch the
receiver is untouched, so the state is unchanged. -/
def showIdxSt (s : State) (idx : Int) : State :=
  (showIdx s idx).getD s

/-- Source `prev` (lines 391-394): `showIdx(currentIdx - 1)`, forwarding the
return value. -/
def prev (s : State) : Option State :=
  showIdx s (s.currentIdx - 1)

/-- Source `next` (lines 395-398): `showIdx(currentIdx + 1)`, forwarding the
return value. -/
def next (s : State) : Option State :=
  showIdx s (s.currentIdx + 1)

/-- State after `prev` (receiver unchanged on the no-op branch). -/
def prevSt (s : State) : State := (prev s).getD s

/-- State after `next` (receiver unchanged on the no-op branch). -/
def nextSt (s : State) : State := (next s).getD s

/-- One auto-cycling step, `autoMove` (lines 444-454) together with the
timer callback it arms: compute `nextIdx = currentIdx + autoDir`; if that
leaves `[0, maxIdx]`, flip `autoDir` and recompute from the unchanged
`currentIdx`; when the timer fires, `showIdx(nextIdx)` runs (and
`autoMove` reschedules). -/
def autoTick (s : State) : State :=
  let nextIdx := s.currentIdx + s.autoDir
  if nextIdx > s.maxIdx ∨ nextIdx < 0 then
    let s1 := { s with autoDir := s.autoDir * -1 }
    showIdxSt s1 (s.currentIdx + s1.autoDir)
  else
    showIdxSt s nextIdx

/-- Navigation state established by the `Sslider` constructor
(lines 317-387) for `n` images of width `w`: `maxIdx = n - 1`,
`currentIdx = 0`, `left = 0`, `autoDir = 1`, and `showIdx(0)` has marked
legend item 0 selected. -/
def mkSlider (n : Int) (w : Int) : State :=
  { maxIdx := n - 1, width := w, currentIdx := 0, left := 0
    autoDir := 1, legendSel := 0 }

end Sslider

/-!
Model of the ip.js interpolation engine (src/js/sslider.js lines 40-208).

Timestamps and JS numbers handled by the engine are integers (the API
documents `from`/`to` as integers; `Date.now()` is integral ms), so the
state is over `Int`.  The per-tick interpolation position is a rational
(JS float division); the easing function is kept as an explicit
parameter `e : ℚ → ℚ` of the tick procedure, so that the engine's
control logic stays executable.  The default easing itself is the real
cosine curve `defaultEasing` below, analysed separately over `ℝ`.

Callbacks are modelled observationally: `hasEnd`/`hasUpdate` record
whether the `end`/`update` options are configured; the `endCalls` ghost
field records the argument of every `end` invocation (the `each`
callback has no effect on engine state and is not recorded).  JS `null`
and "field absent" are modelled as `none`; the JS coercion `null -> 0`
in arithmetic and comparisons is written `Option.getD _ 0`.
-/

namespace Ip

/-- The value of the `repeat` option, classified the way `reset`
classifies it with `typeof`: a boolean, a number, or anything else. -/
inductive RepeatOpt where
  | bool (b : Bool)
  | num (n : Int)
  | other
deriving DecidableEq, Repr

/-- Run state of an `Ip` instance: `instance.from`/`to` (`fromVal`,
`toVal`), `phase` (JS `undefined` initially, modelled `0`), `_start`
(`startT`), `end` (`endT`), `_firstStart` (`firstStart`), `curr`,
`tripNr`, `wantedTrips`, `running`, `paused`, `_ts` (`pausedTs`), the
armed `setInterval` handle (`intervalArmed`), the configuration options
`duration`, `repeat` (`repeatOpt`), `roundtrip`, the presence flags for
the `end`/`update` callbacks, and the `endCalls` call record. -/
structure State where
  fromVal : Int
  toVal : Int
  phase : Int
  startT : Option Int
  endT : Option Int
  firstStart : Option Int
  curr : Option Int
  tripNr : Int
  wantedTrips : Int
  running : Bool
  paused : Bool
  pausedTs : Option Int
  intervalArmed : Bool
  duration : Int
  repeatOpt : RepeatOpt
  roundtrip : Bool
  hasEnd : Bool
  hasUpdate : Bool
  endCalls : List (Option Int)
deriving DecidableEq, Repr

/-- The `wantedTrips` computation of `reset` (lines 143-153), following
the `typeof` dispatch: default 1; a boolean `repeat` gives `-1` (true)
or `1` (false); a number gives `repeat + 1` when positive; any other
value leaves the default. -/
def wantedTripsOf : RepeatOpt → Int
  | .bool b => if b then -1 else 1
  | .num n => if n > 0 then n + 1 else 1
  | .other => 1

/-- Source `switchPhase` (lines 61-66): swap `from` and `to`, set `phase` to 2
unless it already is 2, in which case to 1. -/
def switchPhase (i : State) : State :=
  { i with fromVal := i.toVal, toVal := i.fromVal
           phase := if i.phase ≠ 2 then 2 else 1 }

/-- Source `checkEnd` (lines 88-90): if an `end` callback is configured, invoke
it with `instance._firstStart` (recorded in `endCalls`). -/
def checkEnd (i : State) : State :=
  if i.hasEnd then { i with endCalls := i.endCalls ++ [i.firstStart] } else i

/-- Source `reset` (lines 133-154): null out the timing fields and the armed
interval, clear both flags, delete `_firstStart`, and recompute
`tripNr`/`wantedTrips` from the `repeat` option.  `from`, `to`, `phase`
and the options survive. -/
def reset (i : State) : State :=
  { i with startT := none, endT := none, curr := none
           intervalArmed := false, paused := false, running := false
           firstStart := none, tripNr := 0
           wantedTrips := wantedTripsOf i.repeatOpt }

/-- Source `doStart` (lines 156-162): arm the 16ms `setInterval` tick and set
`running`. -/
def doStart (i : State) : State :=
  { i with intervalArmed := true, running := true }

/-- Source `Ip.prototype.start` (lines 166-174): no-op if running; otherwise
record `_firstStart` on the first-ever start only, set
`_start = now` and `end = now + duration`, and `doStart`. -/
def start (i : State) (now : Int) : State :=
  if i.running then i
  else
    let i1 := if i.firstStart.isSome then i else { i with firstStart := some now }
    doStart { i1 with startT := some now, endT := some (now + i1.duration) }

/-- Source `Ip.prototype.pause` (lines 175-182): no-op if paused; otherwise set
`paused`, clear `running`, capture `_ts = now - _start`. -/
def pause (i : State) (now : Int) : State :=
  if i.paused then i
  else { i with paused := true, running := false
                pausedTs := some (now - i.startT.getD 0) }

/-- Source `Ip.prototype.resume` (lines 183-192): no-op if not paused;
otherwise clear `paused`, set `running`, recompute
`_start = now - _ts` and `end = _start + duration`, delete `_ts`, and
`doStart`. -/
def resume (i : State) (now : Int) : State :=
  if !i.paused then i
  else
    let st := now - i.pausedTs.getD 0
    doStart { i with paused := false, running := true
                     startT := some st, endT := some (st + i.duration)
                     pausedTs := none }

/-- Source `Ip.prototype.stop` (lines 193-199): no-op if not running; otherwise
`checkEnd`, clear the interval, `reset`. -/
def stop (i : State) : State :=
  if !i.running then i
  else reset { (checkEnd i) with intervalArmed := false }

/-- Source `checkTripFinished` (lines 92-107).  When `now > end` the trip
finished: clear the interval and `running`; if `roundtrip` and the
phase is not 2, start the journey back (`roundtrip()` = `switchPhase`
then `start()`, lines 68-71, consuming no trip); else if
`wantedTrips == -1` or `++tripNr < wantedTrips` (note the JS
short-circuit: `tripNr` is incremented only when `wantedTrips ≠ -1`),
possibly switch back from phase 2 and start another trip; else
`checkEnd`. -/
def checkTripFinished (i : State) (now : Int) : State :=
  if now > i.endT.getD 0 then
    let i1 : State := { i with intervalArmed := false, running := false }
    if i1.roundtrip ∧ i1.phase ≠ 2 then
      start (switchPhase i1) now
    else if i1.wantedTrips = -1 then
      start (if i1.roundtrip then switchPhase i1 else i1) now
    else
      let i2 : State := { i1 with tripNr := i1.tripNr + 1 }
      if i2.tripNr < i2.wantedTrips then
        start (if i2.roundtrip then switchPhase i2 else i2) now
      else
        checkEnd i2
  else i

/-- The value computed by `work` (lines 111-113):
`pos = now > end ? 1 : (now - _start) / duration` and
`value = floor(from + (to - from) * easing(pos))`.  Total rational
division stands in for JS float division; the one point where the two
differ (`duration = 0` with `now = _start`, where JS produces `NaN`)
is modelled exactly by `tickPos` below. -/
def workValue (e : ℚ → ℚ) (i : State) (now : Int) : Int :=
  let pos : ℚ :=
    if now > i.endT.getD 0 then 1
    else ((now - i.startT.getD 0 : Int) : ℚ) / ((i.duration : Int) : ℚ)
  ⌊(i.fromVal : ℚ) + ((i.toVal : ℚ) - (i.fromVal : ℚ)) * e pos⌋

/-- Source `checkUpdate` (lines 81-86): when the computed value differs from
`curr` (`null != value` is true for any number), store it and invoke
the `update` callback. -/
def checkUpdate (i : State) (value : Int) : State :=
  if i.curr ≠ some value then { i with curr := some value } else i

/-- Source `work` (lines 109-119), the per-tick procedure: if paused, clear
the interval and return (`checkPaused`, lines 73-79); otherwise compute
the value, run the `each` callback (no state effect), run `checkUpdate`
when an `update` callback is configured, then `checkTripFinished`. -/
def work (e : ℚ → ℚ) (i : State) (now : Int) : State :=
  if i.paused then { i with intervalArmed := false }
  else
    let value := workValue e i now
    let i1 := if i.hasUpdate then checkUpdate i value else i
    checkTripFinished i1 now

/-- The `Ip` constructor (lines 121-131) restricted to its run-state
effect: store the options and endpoints, then `reset`.  `phase` starts
out JS-`undefined`, modelled as `0` (any value other than 1 and 2). -/
def mkRun (fromVal toVal dur : Int) (rep : RepeatOpt)
    (rt hasEnd hasUpdate : Bool) : State :=
  reset
    { fromVal := fromVal, toVal := toVal, phase := 0
      startT := none, endT := none, firstStart := none, curr := none
      tripNr := 0, wantedTrips := 1, running := false, paused := false
      pausedTs := none, intervalArmed := false
      duration := dur, repeatOpt := rep, roundtrip := rt
      hasEnd := hasEnd, hasUpdate := hasUpdate, endCalls := [] }

/-- The `pos` computation of `work` (line 112),
`pos = now > end ? 1 : (now - _start) / duration`, modelled exactly:
JS float division by zero does not yield a number (`0/0 = NaN` here,
since `now = _start` whenever the divisor-zero case is hit with
`now ≤ end`), which is modelled as `none`. -/
def tickPos (startT endT dur now : Int) : Option ℚ :=
  if now > endT then some 1
  else if dur = 0 then none
  else some (((now - startT : Int) : ℚ) / ((dur : Int) : ℚ))

/-- The default easing option (lines 46-48):
`pos ↦ (-cos(pos·π)/2) + 0.5`, as a function on the reals. -/
noncomputable def defaultEasing (pos : ℝ) : ℝ :=
  -Real.cos (pos * Real.pi) / 2 + 0.5

/-- The value emitted by the finishing tick of a trip from `a` to `b`
under the default easing: `pos = 1`, so
`value = floor(a + (b - a) * defaultEasing 1)` (line 113). -/
noncomputable def finalValue (a b : Int) : Int :=
  ⌊(a : ℝ) + ((b : ℝ) - (a : ℝ)) * defaultEasing 1⌋

/-- One firing of the armed `setInterval` tick at the first instant
after the current trip's `end` timestamp (so the tick observes
`now > end` and `checkTripFinished` fires).  `setInterval` only fires
while armed; after `clearInterval` nothing runs. -/
def nextLegTick (e : ℚ → ℚ) (i : State) : State :=
  if i.intervalArmed then work e i (i.endT.getD 0 + 1) else i

/-- Iterates `k` successive trip-finishing ticks, each delivered by the
scheduler just after the then-current `end` timestamp. -/
def runTrips (e : ℚ → ℚ) (i : State) : Nat → State
  | 0 => i
  | k + 1 => runTrips e (nextLegTick e i) k

/-- An operation applied to a run from outside or by the scheduler:
one of the four instance methods, or a tick of the armed interval at
timestamp `now`. -/
inductive Op where
  | start (now : Int)
  | pause (now : Int)
  | resume (now : Int)
  | stop
  | tick (now : Int)
deriving DecidableEq, Repr

/-- Whether an operation is a `start()` call. -/
def Op.isStart : Op → Bool
  | .start _ => true
  | _ => false

/-- Apply one operation to the run state.  A tick only does work while
the interval is armed (`setInterval` callbacks stop once
`clearInterval` ran). -/
def applyOp (e : ℚ → ℚ) (i : State) : Op → State
  | .start now => start i now
  | .pause now => pause i now
  | .resume now => resume i now
  | .stop => stop i
  | .tick now => if i.intervalArmed then work e i now else i

/-- Apply a sequence of operations in order. -/
def runOps (e : ℚ → ℚ) (i : State) (ops : List Op) : State :=
  List.foldl (applyOp e) i ops

/-- Decidable guard on an operation sequence: `start()` is never
invoked on a paused run. -/
def noStartWhilePaused (e : ℚ → ℚ) (i : State) : List Op → Bool
  | [] => true
  | op :: rest =>
      (!(Op.isStart op) || !i.paused)
        && noStartWhilePaused e (applyOp e i op) rest

end Ip

/-- Proof-side invariant of a live non-roundtrip run that was first
started at `t0` with duration `dur` and `wantedTrips = w`, has so far
completed `k` trips, has an `end` callback but no `update` callback
configured, and has not yet invoked `end`. -/
def TripRun (t0 dur w k : Int) (i : Ip.State) : Prop :=
  i.running = true ∧ i.paused = false ∧ i.intervalArmed = true ∧
  i.roundtrip = false ∧ i.hasEnd = true ∧ i.hasUpdate = false ∧
  i.firstStart = some t0 ∧ i.endCalls = [] ∧
  i.wantedTrips = w ∧ i.tripNr = k ∧ i.duration = dur

/-- Proof-side description of a fully completed non-roundtrip run first
started at `t0`: `end` has been invoked exactly once with `t0`, the
interval is cleared and the run is no longer running. -/
def TripDone (t0 : Int) (i : Ip.State) : Prop :=
  i.endCalls = [some t0] ∧ i.running = false ∧ i.intervalArmed = false

/-! ## Basic facts about the default easing and the slider operations -/

theorem defaultEasing_zero : Ip.defaultEasing 0 = 0 := by
  unfold Ip.defaultEasing
  rw [zero_mul, Real.cos_zero]
  norm_num

theorem defaultEasing_one : Ip.defaultEasing 1 = 1 := by
  unfold Ip.defaultEasing
  rw [one_mul, Real.cos_pi]
  norm_num

theorem finalValue_eq (a b : Int) : Ip.finalValue a b = b := by
  unfold Ip.finalValue
  rw [defaultEasing_one, mul_one]
  have h : (a : ℝ) + ((b : ℝ) - (a : ℝ)) = (b : ℝ) := by ring
  rw [h, Int.floor_intCast]

theorem showIdx_none (s : Sslider.State) (idx : Int)
    (h : idx < 0 ∨ idx > s.maxIdx) :
    Sslider.showIdx s idx = none := by
  unfold Sslider.showIdx
  rw [if_pos h]

theorem showIdxSt_in_range (s : Sslider.State) (idx : Int)
    (h : ¬(idx < 0 ∨ idx > s.maxIdx)) :
    Sslider.showIdxSt s idx =
      { s with currentIdx := idx, left := -1 * idx * s.width
               legendSel := idx } := by
  unfold Sslider.showIdxSt Sslider.showIdx Sslider.setLeftPos
  rw [if_neg h]
  rfl

theorem showIdxSt_noop (s : Sslider.State) (idx : Int)
    (h : idx < 0 ∨ idx > s.maxIdx) :
    Sslider.showIdxSt s idx = s := by
  unfold Sslider.showIdxSt
  rw [showIdx_none s idx h]
  rfl

/-! ## Claims -/

/-- C9: the default easing function `pos ↦ (-cos(pos·π)/2) + 0.5`
satisfies `easing(0) = 0` and `easing(1) = 1`, and is monotonically
non-decreasing on `[0, 1]`. -/
theorem easing_endpoint_and_monotone :
    Ip.defaultEasing 0 = 0 ∧ Ip.defaultEasing 1 = 1 ∧
      MonotoneOn Ip.defaultEasing (Set.Icc (0 : ℝ) 1) := by
  refine ⟨defaultEasing_zero, defaultEasing_one, ?_⟩
  intro x hx y hy hxy
  unfold Ip.defaultEasing
  have hπ : (0 : ℝ) ≤ Real.pi := Real.pi_pos.le
  have hcos : Real.cos (y * Real.pi) ≤ Real.cos (x * Real.pi) := by
    apply Real.cos_le_cos_of_nonneg_of_le_pi
    · exact mul_nonneg hx.1 hπ
    · calc y * Real.pi ≤ 1 * Real.pi := mul_le_mul_of_nonneg_right hy.2 hπ
        _ = Real.pi := one_mul _
    · exact mul_le_mul_of_nonneg_right hxy hπ
  linarith

/-- C1: for every slider and every `idx` in `[0, maxIdx]`,
`showIdx(idx)` sets `currentIdx` to `idx` and sets the offset to
`-idx * width`; the interpolated transition strategy converges to the
same value, since the value emitted by the finishing tick of a run from
the current offset to `-idx * width` is exactly `-idx * width`. -/
theorem showIdx_sets_index_and_offset (s : Sslider.State) (idx : Int)
    (h0 : 0 ≤ idx) (h1 : idx ≤ s.maxIdx) :
    (Sslider.showIdxSt s idx).currentIdx = idx ∧
    (Sslider.showIdxSt s idx).left = -idx * s.width ∧
    Ip.finalValue s.left (-idx * s.width) = -idx * s.width := by
  rw [showIdxSt_in_range s idx (by omega)]
  refine ⟨rfl, ?_, finalValue_eq _ _⟩
  show -1 * idx * s.width = -idx * s.width
  ring

/-- C1 witness: a slider of 5 images with width 300; `showIdx(3)` gives
`currentIdx = 3` and offset `-900`. -/
theorem showIdx_sets_index_and_offset_witness :
    (Sslider.showIdxSt (Sslider.mkSlider 5 300) 3).currentIdx = 3 ∧
    (Sslider.showIdxSt (Sslider.mkSlider 5 300) 3).left = -900 := by
  have h := showIdx_sets_index_and_offset (Sslider.mkSlider 5 300) 3
    (by decide) (by decide)
  refine ⟨h.1, ?_⟩
  rw [h.2.1]
  decide

/-- C2: for every slider and every `idx` outside `[0, maxIdx]`,
`showIdx(idx)` leaves the whole state unchanged; consequently `next()`
at the last index and `prev()` at index 0 leave the state unchanged. -/
theorem showIdx_out_of_range_noop (s : Sslider.State) (idx : Int) :
    ((idx < 0 ∨ idx > s.maxIdx) → Sslider.showIdxSt s idx = s) ∧
    (s.currentIdx = s.maxIdx → Sslider.nextSt s = s) ∧
    (s.currentIdx = 0 → Sslider.prevSt s = s) := by
  refine ⟨fun h => showIdxSt_noop s idx h, fun h => ?_, fun h => ?_⟩
  · unfold Sslider.nextSt Sslider.next
    rw [showIdx_none s _ (by omega)]
    rfl
  · unfold Sslider.prevSt Sslider.prev
    rw [showIdx_none s _ (by omega)]
    rfl

/-- C2 witness: on a 5-image slider, `showIdx(7)` changes nothing, and
`prev()` at index 0 changes nothing. -/
theorem showIdx_out_of_range_noop_witness :
    Sslider.showIdxSt (Sslider.mkSlider 5 300) 7 = Sslider.mkSlider 5 300 ∧
    Sslider.prevSt (Sslider.mkSlider 5 300) = Sslider.mkSlider 5 300 := by
  have h := showIdx_out_of_range_noop (Sslider.mkSlider 5 300) 7
  exact ⟨h.1 (by decide), h.2.2 (by decide)⟩

/-- C10: out-of-range `showIdx` returns `undefined` (`none`) rather
than the slider handle, so a chained `showIdx(bad).next()` fails
(`none` under `Option.bind`); `prev()` at index 0 and `next()` at the
last index likewise return `undefined`. -/
theorem showIdx_out_of_range_returns_undefined (s : Sslider.State)
    (idx : Int) (h : idx < 0 ∨ idx > s.maxIdx) :
    Sslider.showIdx s idx = none ∧
    (Sslider.showIdx s idx).bind Sslider.next = none ∧
    (s.currentIdx = 0 → Sslider.prev s = none) ∧
    (s.currentIdx = s.maxIdx → Sslider.next s = none) := by
  refine ⟨showIdx_none s idx h, ?_, fun h0 => ?_, fun h1 => ?_⟩
  · rw [showIdx_none s idx h]
    rfl
  · unfold Sslider.prev
    exact showIdx_none s _ (by omega)
  · unfold Sslider.next
    exact showIdx_none s _ (by omega)

/-- C10 witness: on a 5-image slider, `showIdx(9)` returns `none`, the
chained call is `none`, and `prev()` at index 0 returns `none`. -/
theorem showIdx_out_of_range_returns_undefined_witness :
    Sslider.showIdx (Sslider.mkSlider 5 300) 9 = none ∧
    (Sslider.showIdx (Sslider.mkSlider 5 300) 9).bind Sslider.next = none ∧
    Sslider.prev (Sslider.mkSlider 5 300) = none := by
  have h := showIdx_out_of_range_returns_undefined (Sslider.mkSlider 5 300) 9
    (by decide)
  exact ⟨h.1, h.2.1, h.2.2.1 (by decide)⟩

/-- C5: each auto step adds `autoDir` to the current index; if that
leaves `[0, maxIdx]`, the direction is flipped and the next index
recomputed from the unchanged current index before `showIdx` runs.
With 5 frames from index 0 and direction +1 the visited indices are
1, 2, 3, 4, after which the direction is -1 and the next visited index
is 3. -/
theorem autoMove_steps (s : Sslider.State) :
    (0 ≤ s.currentIdx + s.autoDir ∧ s.currentIdx + s.autoDir ≤ s.maxIdx →
      (Sslider.autoTick s).currentIdx = s.currentIdx + s.autoDir ∧
      (Sslider.autoTick s).autoDir = s.autoDir) ∧
    (s.currentIdx + s.autoDir > s.maxIdx ∨ s.currentIdx + s.autoDir < 0 →
      (Sslider.autoTick s).autoDir = -s.autoDir ∧
      (0 ≤ s.currentIdx - s.autoDir ∧ s.currentIdx - s.autoDir ≤ s.maxIdx →
        (Sslider.autoTick s).currentIdx = s.currentIdx - s.autoDir)) ∧
    ((Sslider.autoTick^[1] (Sslider.mkSlider 5 300)).currentIdx = 1 ∧
     (Sslider.autoTick^[2] (Sslider.mkSlider 5 300)).currentIdx = 2 ∧
     (Sslider.autoTick^[3] (Sslider.mkSlider 5 300)).currentIdx = 3 ∧
     (Sslider.autoTick^[4] (Sslider.mkSlider 5 300)).currentIdx = 4 ∧
     (Sslider.autoTick^[4] (Sslider.mkSlider 5 300)).autoDir = 1 ∧
     (Sslider.autoTick^[5] (Sslider.mkSlider 5 300)).currentIdx = 3 ∧
     (Sslider.autoTick^[5] (Sslider.mkSlider 5 300)).autoDir = -1) := by
  refine ⟨?_, ?_, by decide⟩
  · rintro ⟨h0, h1⟩
    unfold Sslider.autoTick
    rw [if_neg (by omega)]
    rw [showIdxSt_in_range s _ (by omega)]
    exact ⟨rfl, rfl⟩
  · intro h
    unfold Sslider.autoTick
    rw [if_pos h]
    constructor
    · have hd : ∀ (t : Sslider.State) (j : Int),
          (Sslider.showIdxSt t j).autoDir = t.autoDir := by
        intro t j
        unfold Sslider.showIdxSt Sslider.showIdx Sslider.setLeftPos
        split <;> rfl
      rw [hd]
      show s.autoDir * -1 = -s.autoDir
      ring
    · rintro ⟨g0, g1⟩
      have hcond : ¬(({ s with autoDir := s.autoDir * -1 } : Sslider.State).currentIdx
            + ({ s with autoDir := s.autoDir * -1 } : Sslider.State).autoDir < 0
          ∨ ({ s with autoDir := s.autoDir * -1 } : Sslider.State).currentIdx
            + ({ s with autoDir := s.autoDir * -1 } : Sslider.State).autoDir
            > ({ s with autoDir := s.autoDir * -1 } : Sslider.State).maxIdx) := by
        show ¬(s.currentIdx + s.autoDir * -1 < 0
          ∨ s.currentIdx + s.autoDir * -1 > s.maxIdx)
        omega
      rw [showIdxSt_in_range _ _ hcond]
      show s.currentIdx + s.autoDir * -1 = s.currentIdx - s.autoDir
      ring

/-! ## Flag bookkeeping of the interpolation engine -/

theorem start_paused (i : Ip.State) (now : Int) :
    (Ip.start i now).paused = i.paused := by
  simp only [Ip.start, Ip.doStart]
  split
  · rfl
  · split <;> rfl

theorem checkEnd_paused (i : Ip.State) :
    (Ip.checkEnd i).paused = i.paused := by
  unfold Ip.checkEnd
  split <;> rfl

theorem checkUpdate_paused (i : Ip.State) (v : Int) :
    (Ip.checkUpdate i v).paused = i.paused := by
  unfold Ip.checkUpdate
  split <;> rfl

theorem checkTripFinished_paused (i : Ip.State) (now : Int) :
    (Ip.checkTripFinished i now).paused = i.paused := by
  simp only [Ip.checkTripFinished]
  split
  · split
    · rw [start_paused]
      rfl
    · split
      · rw [start_paused]
        split <;> rfl
      · split
        · rw [start_paused]
          split <;> rfl
        · rw [checkEnd_paused]
  · rfl

theorem work_paused (e : ℚ → ℚ) (i : Ip.State) (now : Int) :
    (Ip.work e i now).paused = i.paused := by
  simp only [Ip.work]
  split
  · rfl
  · rw [checkTripFinished_paused]
    split
    · rw [checkUpdate_paused]
    · rfl

theorem applyOp_excl (e : ℚ → ℚ) (i : Ip.State) (op : Ip.Op)
    (hinv : i.paused = true → i.running = false)
    (hguard : Ip.Op.isStart op = true → i.paused = false) :
    (Ip.applyOp e i op).paused = true →
      (Ip.applyOp e i op).running = false := by
  cases op with
  | start now =>
      intro hp
      rw [Ip.applyOp, start_paused, hguard rfl] at hp
      cases hp
  | pause now =>
      intro hp
      by_cases h : i.paused = true
      · simp only [Ip.applyOp, Ip.pause, if_pos h] at hp ⊢
        exact hinv hp
      · simp only [Ip.applyOp, Ip.pause, if_neg h]
  | resume now =>
      intro hp
      by_cases h : i.paused = true <;>
        simp [Ip.applyOp, Ip.resume, Ip.doStart, h] at hp
  | stop =>
      intro hp
      by_cases h : i.running = true
      · simp [Ip.applyOp, Ip.stop, Ip.reset, Ip.checkEnd, h] at hp
      · simp [Ip.applyOp, Ip.stop, h]
  | tick now =>
      intro hp
      by_cases ha : i.intervalArmed = true
      · rw [Ip.applyOp, if_pos ha] at hp ⊢
        rw [work_paused] at hp
        simp only [Ip.work, if_pos hp]
        exact hinv hp
      · rw [Ip.applyOp, if_neg ha] at hp ⊢
        exact hinv hp

/-! ## Claims, continued -/

/-- C6 counterexample: the state reached by `start(); pause(); start()`
has `paused = true` and `running = true` at the same time — `start()`
on a paused run sets `running` without clearing `paused`, so the
claimed mutual exclusion fails on the code as stated. -/
theorem paused_and_running_reachable :
    (Ip.runOps (fun _ => 0)
        (Ip.mkRun 0 100 10 (Ip.RepeatOpt.bool false) false true false)
        [Ip.Op.start 0, Ip.Op.pause 5, Ip.Op.start 6]).paused = true ∧
    (Ip.runOps (fun _ => 0)
        (Ip.mkRun 0 100 10 (Ip.RepeatOpt.bool false) false true false)
        [Ip.Op.start 0, Ip.Op.pause 5, Ip.Op.start 6]).running = true := by
  decide

/-- C6 (amended): `paused` implies not `running` in every state
reachable from a state satisfying the exclusion by sequences of
`start`, `pause`, `resume`, `stop` and tick operations in which
`start()` is never invoked on a paused run.  (Calling `start()` while
paused sets `running` without clearing `paused`, which breaks the
exclusion — see the counterexample.) -/
theorem paused_running_exclusive (e : ℚ → ℚ) (i : Ip.State)
    (ops : List Ip.Op)
    (hinv : i.paused = true → i.running = false)
    (hg : Ip.noStartWhilePaused e i ops = true) :
    (Ip.runOps e i ops).paused = true →
      (Ip.runOps e i ops).running = false := by
  induction ops generalizing i with
  | nil => exact hinv
  | cons op rest ih =>
      rw [Ip.noStartWhilePaused, Bool.and_eq_true] at hg
      have hstep : Ip.runOps e i (op :: rest)
          = Ip.runOps e (Ip.applyOp e i op) rest := rfl
      rw [hstep]
      refine ih _ (applyOp_excl e i op hinv ?_) hg.2
      intro hs
      have h1 := hg.1
      rw [hs] at h1
      simpa using h1

/-- C6 witness: a concrete guarded sequence `start; pause` ends paused
and, by the invariant, not running. -/
theorem paused_running_exclusive_witness :
    (Ip.runOps (fun _ => 0)
        (Ip.mkRun 0 100 10 (Ip.RepeatOpt.bool false) false true false)
        [Ip.Op.start 0, Ip.Op.pause 5]).running = false :=
  paused_running_exclusive (fun _ => 0)
    (Ip.mkRun 0 100 10 (Ip.RepeatOpt.bool false) false true false)
    [Ip.Op.start 0, Ip.Op.pause 5]
    (by decide) (by decide) (by decide)

/-- C7 counterexample: on a run started at 0 and paused at 5, `stop()`
changes nothing — in particular `end` is not invoked and the state is
not reset (it stays paused), because `pause()` cleared `running` and
`stop()` returns immediately when not running. -/
theorem stop_while_paused_is_noop :
    (Ip.stop (Ip.pause (Ip.start
        (Ip.mkRun 0 100 10 (Ip.RepeatOpt.bool false) false true false) 0) 5)
      = Ip.pause (Ip.start
        (Ip.mkRun 0 100 10 (Ip.RepeatOpt.bool false) false true false) 0) 5) ∧
    (Ip.stop (Ip.pause (Ip.start
        (Ip.mkRun 0 100 10 (Ip.RepeatOpt.bool false) false true false) 0) 5)).endCalls
      = [] ∧
    (Ip.stop (Ip.pause (Ip.start
        (Ip.mkRun 0 100 10 (Ip.RepeatOpt.bool false) false true false) 0) 5)).paused
      = true := by
  decide

/-- C7 (amended): `stop()` on a paused run is a silent no-op, not
equivalent to `stop()` while running: `pause()` sets `running = false`,
and `stop()` returns immediately when not running, so it neither
invokes the `end` callback nor resets the run state. -/
theorem stop_after_pause_noop (i : Ip.State) (now : Int)
    (h : i.paused = false) :
    (Ip.pause i now).running = false ∧
    Ip.stop (Ip.pause i now) = Ip.pause i now ∧
    (Ip.stop (Ip.pause i now)).endCalls = i.endCalls ∧
    (Ip.stop (Ip.pause i now)).paused = true := by
  have hp : Ip.pause i now
      = { i with paused := true, running := false
                 pausedTs := some (now - i.startT.getD 0) } := by
    unfold Ip.pause
    rw [if_neg (by simp [h])]
  refine ⟨by rw [hp], ?_, ?_, ?_⟩ <;> rw [hp] <;> rfl

/-- C7 witness: the amended fact at a concrete run (started at 0,
paused at 5): `stop()` leaves the paused state untouched and fires no
`end`. -/
theorem stop_after_pause_noop_witness :
    Ip.stop (Ip.pause (Ip.start
        (Ip.mkRun 0 100 10 (Ip.RepeatOpt.bool false) false true false) 0) 5)
      = Ip.pause (Ip.start
        (Ip.mkRun 0 100 10 (Ip.RepeatOpt.bool false) false true false) 0) 5 :=
  (stop_after_pause_noop
    (Ip.start (Ip.mkRun 0 100 10 (Ip.RepeatOpt.bool false) false true false) 0)
    5 (by decide)).2.1

/-- C8 counterexample: with `duration = 0` a tick exactly at the start
timestamp (which is at-or-after the start timestamp, and at which
`end = start + duration` holds) does not treat `pos` as 1: the guard
`now > end` fails and the code computes `(now - start) / duration =
0 / 0`, a division by zero (JS `NaN`), modelled as `none`. -/
theorem tickPos_divides_by_zero_at_start :
    Ip.tickPos 0 0 0 0 = none ∧ Ip.tickPos 0 0 0 0 ≠ some 1 := by
  decide

/-- C8 (amended): for every run with `duration ≤ 0` and
`end = start + duration`, every tick at or after the start timestamp —
except a tick exactly at the start timestamp when `duration = 0` —
treats `pos` as 1 immediately, with no division.  (The excluded tick
computes `0 / 0`; the 16 ms interval scheduler never delivers a tick at
the start timestamp itself.) -/
theorem tickPos_one_for_nonpositive_duration
    (startT endT dur now : Int)
    (hend : endT = startT + dur) (hd : dur ≤ 0) (hn : startT ≤ now)
    (hne : ¬(dur = 0 ∧ now = startT)) :
    Ip.tickPos startT endT dur now = some 1 := by
  unfold Ip.tickPos
  rw [if_pos (by omega)]

/-- C8 witness: duration 0, start 0, tick at 5: `pos = 1`. -/
theorem tickPos_one_for_nonpositive_duration_witness :
    Ip.tickPos 0 0 0 5 = some 1 :=
  tickPos_one_for_nonpositive_duration 0 0 0 5
    (by decide) (by decide) (by decide) (by decide)

/-- C5 witness: with 5 frames at index 2 and direction +1 the next
visited index is 3 with direction unchanged; at index 4 the direction
flips to -1 and the visited index is 3. -/
theorem autoMove_steps_witness :
    (Sslider.autoTick { Sslider.mkSlider 5 300 with currentIdx := 2 }).currentIdx = 3 ∧
    (Sslider.autoTick { Sslider.mkSlider 5 300 with currentIdx := 2 }).autoDir = 1 ∧
    (Sslider.autoTick { Sslider.mkSlider 5 300 with currentIdx := 4 }).autoDir = -1 ∧
    (Sslider.autoTick { Sslider.mkSlider 5 300 with currentIdx := 4 }).currentIdx = 3 := by
  have h2 := autoMove_steps { Sslider.mkSlider 5 300 with currentIdx := 2 }
  have h4 := autoMove_steps { Sslider.mkSlider 5 300 with currentIdx := 4 }
  refine ⟨(h2.1 (by decide)).1, (h2.1 (by decide)).2, ?_, ?_⟩
  · have := (h4.2.1 (by decide)).1
    rw [this]
    decide
  · have := (h4.2.1 (by decide)).2 (by decide)
    rw [this]
    decide

/-! ## Trip accounting of the interpolation engine -/

theorem start_endCalls (i : Ip.State) (now : Int) :
    (Ip.start i now).endCalls = i.endCalls := by
  simp only [Ip.start, Ip.doStart]
  split
  · rfl
  · split <;> rfl

theorem checkUpdate_endCalls (i : Ip.State) (v : Int) :
    (Ip.checkUpdate i v).endCalls = i.endCalls := by
  unfold Ip.checkUpdate
  split <;> rfl

theorem checkUpdate_wantedTrips (i : Ip.State) (v : Int) :
    (Ip.checkUpdate i v).wantedTrips = i.wantedTrips := by
  unfold Ip.checkUpdate
  split <;> rfl

theorem checkTripFinished_endCalls_forever (i : Ip.State) (now : Int)
    (hw : i.wantedTrips = -1) :
    (Ip.checkTripFinished i now).endCalls = i.endCalls := by
  simp only [Ip.checkTripFinished]
  split
  · split
    · rw [start_endCalls]
      rfl
    · rw [start_endCalls]
      split <;> rfl
  · rfl

theorem work_endCalls_forever (e : ℚ → ℚ) (i : Ip.State) (now : Int)
    (hw : i.wantedTrips = -1) :
    (Ip.work e i now).endCalls = i.endCalls := by
  simp only [Ip.work]
  split
  · rfl
  · split
    · rw [checkTripFinished_endCalls_forever _ _
          (by rw [checkUpdate_wantedTrips]; exact hw), checkUpdate_endCalls]
    · rw [checkTripFinished_endCalls_forever _ _ hw]

theorem workValue_at_leg_end (e : ℚ → ℚ) (he : e 1 = 1) (i : Ip.State)
    (now : Int) (hnow : now > i.endT.getD 0) :
    Ip.workValue e i now = i.toVal := by
  simp only [Ip.workValue]
  rw [if_pos hnow, he, mul_one]
  rw [show (i.fromVal : ℚ) + ((i.toVal : ℚ) - (i.fromVal : ℚ))
      = ((i.toVal : ℚ)) from by ring]
  exact Int.floor_intCast _

theorem work_leg_end_roundtrip_forever (e : ℚ → ℚ) (he : e 1 = 1)
    (i : Ip.State) (now : Int)
    (hp : i.paused = false) (hrt : i.roundtrip = true)
    (hw : i.wantedTrips = -1) (hu : i.hasUpdate = true)
    (hf : i.firstStart.isSome = true)
    (hnow : now > i.endT.getD 0) :
    (Ip.work e i now).fromVal = i.toVal ∧
    (Ip.work e i now).toVal = i.fromVal ∧
    (Ip.work e i now).phase = (if i.phase ≠ 2 then 2 else 1) ∧
    (Ip.work e i now).tripNr = i.tripNr ∧
    (Ip.work e i now).running = true ∧
    (Ip.work e i now).intervalArmed = true ∧
    (Ip.work e i now).paused = false ∧
    (Ip.work e i now).endCalls = i.endCalls ∧
    (Ip.work e i now).curr = some i.toVal ∧
    (Ip.work e i now).endT = some (now + i.duration) ∧
    (Ip.work e i now).wantedTrips = -1 ∧
    (Ip.work e i now).roundtrip = true ∧
    (Ip.work e i now).hasUpdate = true ∧
    (Ip.work e i now).firstStart = i.firstStart ∧
    (Ip.work e i now).duration = i.duration := by
  have hvalue := workValue_at_leg_end e he i now hnow
  by_cases hph : i.phase = 2 <;> by_cases hc : i.curr = some i.toVal <;>
    simp [Ip.work, Ip.checkUpdate, Ip.checkTripFinished, Ip.start,
      Ip.doStart, Ip.switchPhase, hp, hrt, hw, hu, hf, hnow, hvalue, hph, hc]

theorem nextLegTick_continue (e : ℚ → ℚ) (t0 dur w k : Int) (i : Ip.State)
    (h : TripRun t0 dur w k i) (hw : w = -1 ∨ k + 1 < w) :
    TripRun t0 dur w (if w = -1 then k else k + 1) (Ip.nextLegTick e i) := by
  obtain ⟨hr, hp, ha, hrt, he, hu, hf, hec, hwt, hk, hd⟩ := h
  have hnow : i.endT.getD 0 + 1 > i.endT.getD 0 := by omega
  by_cases hw1 : w = -1
  · rw [if_pos hw1]
    rw [hw1] at hwt
    simp [TripRun, Ip.nextLegTick, Ip.work, Ip.checkTripFinished, Ip.start,
      Ip.doStart, ha, hp, hrt, hu, hf, hec, hwt, hk, hd, hnow, he, hr, hw1]
  · rw [if_neg hw1]
    have hlt : k + 1 < w := hw.resolve_left hw1
    have hne : ¬(i.wantedTrips = -1) := by omega
    have hlt2 : i.tripNr + 1 < i.wantedTrips := by omega
    simp [TripRun, Ip.nextLegTick, Ip.work, Ip.checkTripFinished, Ip.start,
      Ip.doStart, ha, hp, hrt, hu, hf, hec, hwt, hk, hd, hnow, he, hr,
      hw1, hne, hlt, hlt2]

theorem nextLegTick_finish (e : ℚ → ℚ) (t0 dur w k : Int) (i : Ip.State)
    (h : TripRun t0 dur w k i) (hw1 : ¬(w = -1)) (hc : ¬(k + 1 < w)) :
    TripDone t0 (Ip.nextLegTick e i) ∧ (Ip.nextLegTick e i).tripNr = k + 1 := by
  obtain ⟨hr, hp, ha, hrt, he, hu, hf, hec, hwt, hk, hd⟩ := h
  have hnow : i.endT.getD 0 + 1 > i.endT.getD 0 := by omega
  have hne : ¬(i.wantedTrips = -1) := by omega
  have hge : ¬(i.tripNr + 1 < i.wantedTrips) := by omega
  simp [TripDone, Ip.nextLegTick, Ip.work, Ip.checkTripFinished, Ip.checkEnd,
    ha, hp, hrt, hu, hf, hec, hwt, hk, hd, hnow, he, hne, hge, hw1, hc]

theorem nextLegTick_disarmed (e : ℚ → ℚ) (i : Ip.State)
    (ha : i.intervalArmed = false) : Ip.nextLegTick e i = i := by
  simp [Ip.nextLegTick, ha]

theorem runTrips_disarmed (e : ℚ → ℚ) (i : Ip.State) (k : Nat)
    (ha : i.intervalArmed = false) : Ip.runTrips e i k = i := by
  induction k generalizing i with
  | zero => rfl
  | succ k ih =>
      rw [Ip.runTrips, nextLegTick_disarmed e i ha]
      exact ih i ha

theorem runTrips_forever (e : ℚ → ℚ) (t0 dur k : Int) (i : Ip.State)
    (h : TripRun t0 dur (-1) k i) (m : Nat) :
    TripRun t0 dur (-1) k (Ip.runTrips e i m) := by
  induction m generalizing i with
  | zero => exact h
  | succ m ih =>
      rw [Ip.runTrips]
      have hstep := nextLegTick_continue e t0 dur (-1) k i h (Or.inl rfl)
      rw [if_pos rfl] at hstep
      exact ih _ hstep

theorem runTrips_spec (e : ℚ → ℚ) (t0 dur w : Int) (hw : 1 ≤ w) :
    ∀ (m : Nat) (k : Int) (i : Ip.State), TripRun t0 dur w k i → k < w →
      (((k + m : Int) < w → TripRun t0 dur w (k + m) (Ip.runTrips e i m)) ∧
       (w ≤ (k + m : Int) → TripDone t0 (Ip.runTrips e i m) ∧
          (Ip.runTrips e i m).tripNr = w)) := by
  intro m
  induction m with
  | zero =>
      intro k i h hkw
      exact ⟨fun _ => by simpa using h, fun hle => absurd hkw (by omega)⟩
  | succ m ih =>
      intro k i h hkw
      rw [Ip.runTrips]
      by_cases hc : k + 1 < w
      · have hstep := nextLegTick_continue e t0 dur w k i h (Or.inr hc)
        rw [if_neg (by omega)] at hstep
        obtain ⟨ih1, ih2⟩ := ih (k + 1) (Ip.nextLegTick e i) hstep hc
        constructor
        · intro hlt
          push_cast
          have heq : k + ((m : Int) + 1) = k + 1 + (m : Int) := by ring
          rw [heq]
          exact ih1 (by omega)
        · intro hge
          exact ih2 (by omega)
      · have hfin := nextLegTick_finish e t0 dur w k i h (by omega) hc
        have hstable := runTrips_disarmed e (Ip.nextLegTick e i) m hfin.1.2.2
        rw [hstable]
        constructor
        · intro hlt
          exact absurd hlt (by omega)
        · intro hge
          exact ⟨hfin.1, by rw [hfin.2]; omega⟩

theorem start_mkRun_TripRun (f t dur t0 : Int) (rep : Ip.RepeatOpt) :
    TripRun t0 dur (Ip.wantedTripsOf rep) 0
      (Ip.start (Ip.mkRun f t dur rep false true false) t0) :=
  ⟨rfl, rfl, rfl, rfl, rfl, rfl, rfl, rfl, rfl, rfl, rfl⟩

/-- C3: for a non-roundtrip run with an `end` callback, the `repeat`
option maps to the trip count as: `false` gives exactly one trip and
then `end` fires once, with the first-start timestamp as argument; a
positive integer `N` gives exactly `1 + N` completed trips and then
`end` fires once (`repeat: 2` means `end` after trip 3); `true` gives a
run in which `end` never fires from trip exhaustion — after `k`
trip-finishing ticks the `end`-call record is exactly as stated by the
`if`s below, and the infinite run is still running. -/
theorem repeat_option_trip_counts (e : ℚ → ℚ) (f t dur t0 : Int) (k : Nat) :
    ((Ip.runTrips e (Ip.start
        (Ip.mkRun f t dur (Ip.RepeatOpt.bool false) false true false) t0) k).endCalls
      = if 1 ≤ (k : Int) then [some t0] else []) ∧
    (∀ N : Int, 0 < N →
      (Ip.runTrips e (Ip.start
        (Ip.mkRun f t dur (Ip.RepeatOpt.num N) false true false) t0) k).endCalls
      = if N + 1 ≤ (k : Int) then [some t0] else []) ∧
    ((Ip.runTrips e (Ip.start
        (Ip.mkRun f t dur (Ip.RepeatOpt.bool true) false true false) t0) k).endCalls
        = [] ∧
     (Ip.runTrips e (Ip.start
        (Ip.mkRun f t dur (Ip.RepeatOpt.bool true) false true false) t0) k).running
        = true) := by
  have main : ∀ rep : Ip.RepeatOpt, 1 ≤ Ip.wantedTripsOf rep →
      (Ip.runTrips e (Ip.start
          (Ip.mkRun f t dur rep false true false) t0) k).endCalls
        = if Ip.wantedTripsOf rep ≤ (k : Int) then [some t0] else [] := by
    intro rep hw
    have h0 := start_mkRun_TripRun f t dur t0 rep
    have hs := runTrips_spec e t0 dur (Ip.wantedTripsOf rep) hw k 0 _ h0
      (by omega)
    by_cases hk : Ip.wantedTripsOf rep ≤ (k : Int)
    · rw [if_pos hk]
      exact ((hs.2 (by omega)).1).1
    · rw [if_neg hk]
      exact (hs.1 (by omega)).2.2.2.2.2.2.2.1
  refine ⟨?_, ?_, ?_⟩
  · have h := main (Ip.RepeatOpt.bool false) (by norm_num [Ip.wantedTripsOf])
    rw [h]
    norm_num [Ip.wantedTripsOf]
  · intro N hN
    have hwv : Ip.wantedTripsOf (Ip.RepeatOpt.num N) = N + 1 := by
      simp only [Ip.wantedTripsOf, if_pos hN]
    have h := main (Ip.RepeatOpt.num N) (by rw [hwv]; omega)
    rw [h, hwv]
  · have h0 : TripRun t0 dur (-1) 0 (Ip.start
        (Ip.mkRun f t dur (Ip.RepeatOpt.bool true) false true false) t0) :=
      start_mkRun_TripRun f t dur t0 (Ip.RepeatOpt.bool true)
    have hall := runTrips_forever e t0 dur 0 _ h0 k
    exact ⟨hall.2.2.2.2.2.2.2.1, hall.1⟩

/-- C3 witness: `repeat: 2` — after 3 trip-finishing ticks `end` has
fired once with the first-start timestamp 0; `repeat: true` — after 3
ticks `end` has not fired. -/
theorem repeat_option_trip_counts_witness :
    (Ip.runTrips (fun _ => 0) (Ip.start
        (Ip.mkRun 0 100 10 (Ip.RepeatOpt.num 2) false true false) 0) 3).endCalls
      = [some 0] ∧
    (Ip.runTrips (fun _ => 0) (Ip.start
        (Ip.mkRun 0 100 10 (Ip.RepeatOpt.bool true) false true false) 0) 3).endCalls
      = [] := by
  have h := repeat_option_trip_counts (fun _ => 0) 0 100 10 0 3
  refine ⟨?_, h.2.2.1⟩
  have h2 := h.2.1 2 (by decide)
  rw [h2]
  decide

/-- C4: on a run with `repeat: true` (`wantedTrips = -1`) and
`roundtrip: true`, no tick ever invokes `end`; a leg-finishing tick
swaps `from`/`to` and immediately restarts without consuming a trip
count; and across two consecutive leg-finishing ticks the endpoints
return to their original orientation, the second (even-leg) tick
emitting the original `from` value. -/
theorem roundtrip_forever_no_end (e : ℚ → ℚ) (he : e 1 = 1)
    (i : Ip.State) (now now2 : Int)
    (hp : i.paused = false) (hrt : i.roundtrip = true)
    (hw : i.wantedTrips = -1) (hu : i.hasUpdate = true)
    (hf : i.firstStart.isSome = true)
    (hnow : now > i.endT.getD 0)
    (hnow2 : now2 > now + i.duration) :
    (∀ m : Int, (Ip.work e i m).endCalls = i.endCalls) ∧
    (Ip.work e i now).fromVal = i.toVal ∧
    (Ip.work e i now).toVal = i.fromVal ∧
    (Ip.work e i now).tripNr = i.tripNr ∧
    (Ip.work e i now).running = true ∧
    (Ip.work e i now).curr = some i.toVal ∧
    (Ip.work e (Ip.work e i now) now2).fromVal = i.fromVal ∧
    (Ip.work e (Ip.work e i now) now2).toVal = i.toVal ∧
    (Ip.work e (Ip.work e i now) now2).curr = some i.fromVal ∧
    (Ip.work e (Ip.work e i now) now2).tripNr = i.tripNr ∧
    (Ip.work e (Ip.work e i now) now2).endCalls = i.endCalls := by
  obtain ⟨hA1, hA2, hA3, hA4, hA5, hA6, hA7, hA8, hA9, hA10, hA11,
    hA12, hA13, hA14, hA15⟩ :=
    work_leg_end_roundtrip_forever e he i now hp hrt hw hu hf hnow
  obtain ⟨hB1, hB2, hB3, hB4, hB5, hB6, hB7, hB8, hB9, hB10, hB11,
    hB12, hB13, hB14, hB15⟩ :=
    work_leg_end_roundtrip_forever e he (Ip.work e i now) now2
      hA7 hA12 hA11 hA13 (by rw [hA14]; exact hf)
      (by rw [hA10]; simpa using hnow2)
  refine ⟨fun m => work_endCalls_forever e i m hw,
    hA1, hA2, hA4, hA5, hA9,
    hB1.trans hA2, hB2.trans hA1, by rw [hB9, hA2], hB4.trans hA4,
    hB8.trans hA8⟩

/-- C4 witness: a roundtrip-forever run from 0 to 100 started at 0 with
duration 10; after the outbound leg finishes at tick 11 and the return
leg finishes at tick 25, the emitted value is back at the original
`from` value 0, no trip was consumed, and `end` never fired. -/
theorem roundtrip_forever_no_end_witness :
    (Ip.work (fun x => x) (Ip.work (fun x => x)
        (Ip.start (Ip.mkRun 0 100 10 (Ip.RepeatOpt.bool true) true true true) 0)
        11) 25).curr = some 0 ∧
    (Ip.work (fun x => x) (Ip.work (fun x => x)
        (Ip.start (Ip.mkRun 0 100 10 (Ip.RepeatOpt.bool true) true true true) 0)
        11) 25).endCalls = [] ∧
    (Ip.work (fun x => x) (Ip.work (fun x => x)
        (Ip.start (Ip.mkRun 0 100 10 (Ip.RepeatOpt.bool true) true true true) 0)
        11) 25).tripNr = 0 := by
  have h := roundtrip_forever_no_end (fun x => x) rfl
    (Ip.start (Ip.mkRun 0 100 10 (Ip.RepeatOpt.bool true) true true true) 0)
    11 25 (by decide) (by decide) (by decide) (by decide) (by decide)
    (by decide) (by decide)
  exact ⟨h.2.2.2.2.2.2.2.2.1, h.2.2.2.2.2.2.2.2.2.2, h.2.2.2.2.2.2.2.2.2.1⟩
